import Mathlib

/-!
Shallow embedding of `coro_rt_bot.py`: a poll-once bot that classifies
recent posts of fixed accounts as stream announcements and retweets the
matches at most once, persisting a dedup set of retweeted ids.

Modelling conventions:
* Python attribute access on duck-typed tweepy `Status` records is made
  explicit: `full_text` may be absent (`Option String`), `text` may be
  absent or hold Python `None` (`Option (Option String)`), `entities`
  may be absent.  `hasattr(status, "retweeted_status")` is a `Bool`.
* A raised exception that the caller does not catch is modelled by
  `Option`/flags (`none` from the classifier, `ok := false` in a run).
* Python `str.lower` is modelled as ASCII lowering (the configured
  keywords contain no characters on which they differ), `str.strip`
  strips the ASCII whitespace characters, `in` is substring search,
  `startswith` is list-prefix testing — each on the character list.
* The external world (the retweet API call succeeding or raising) is an
  environment `Env`; the persisted file is an inductive `FileState`.
-/

/-- Characters removed by `str.strip()` (ASCII whitespace). -/
def isPySpace (c : Char) : Bool :=
  c = ' ' || c = '\t' || c = '\n' || c = '\r' || c = '\x0b' || c = '\x0c'

/-- Model of `str.strip()`: drop whitespace from both ends. -/
def pyStrip (s : String) : String :=
  ⟨((s.data.dropWhile isPySpace).reverse.dropWhile isPySpace).reverse⟩

/-- Model of `str.lower()` (ASCII lowering suffices for the configuration). -/
def pyLower (s : String) : String :=
  ⟨s.data.map Char.toLower⟩

/-- Model of `str.startswith(pre)`. -/
def pyStartsWith (s pre : String) : Bool :=
  pre.data.isPrefixOf s.data

/-- Contiguous-sublist test on character lists, for Python `needle in hay`. -/
def listHasSub (needle : List Char) : List Char → Bool
  | [] => needle.isEmpty
  | c :: t => needle.isPrefixOf (c :: t) || listHasSub needle t

/-- Model of Python substring containment `needle in hay`. -/
def strHasSub (needle hay : String) : Bool :=
  listHasSub needle.data hay.data

/-- The `KEYWORDS` configuration list of `coro_rt_bot.py`. -/
def KEYWORDS : List String :=
  ["配信はじまるよ",
   "http://twitch.tv/aomishibi",
   "twitch.tv/aomishibi",
   "twitch.tv/kurin_musee",
   "次の配信"]

/-- The `HASHTAGS` configuration list of `coro_rt_bot.py`. -/
def HASHTAGS : List String :=
  ["CORO配信", "青海しび配信", "來凛みゅぜ配信"]

/-- The streaming-service substrings checked against expanded URLs. -/
def STREAM_SERVICES : List String :=
  ["youtube.com", "youtu.be", "twitch.tv", "nicovideo.jp"]

/-- The `TARGET_USERS` configuration list of `coro_rt_bot.py`. -/
def TARGET_USERS : List String :=
  ["Aomishibi", "kurin_musee"]

/-- The `entities` attribute of a status: hashtag texts (`h["text"]`) and
url entities, each carrying `expanded_url` when that key is present. -/
structure Entities where
  hashtags : List String
  urls : List (Option String)
deriving DecidableEq

/-- A fetched tweepy `Status` record, duck-typed fields made explicit.
`full_text`: present or absent; `text`: absent (outer `none`) or present
and possibly Python `None` (inner `none`); `retweeted_status` records
`hasattr`; `entities`: present or absent. -/
structure Status where
  id : Nat
  full_text : Option String := none
  text : Option (Option String) := some (some "")
  retweeted_status : Bool := false
  entities : Option Entities := none
deriving DecidableEq

/-- The text selection `getattr(status, "full_text", status.text or "")`.
Python evaluates the default argument `status.text or ""` eagerly, so a
status without a `text` attribute raises `AttributeError` (`none` here)
even when `full_text` is present. -/
def textOf (status : Status) : Option String :=
  match status.text with
  | none => none
  | some t => some (status.full_text.getD (t.getD ""))

/-- Keyword rule: some `kw.lower()` of `KEYWORDS` occurs in the lowered text. -/
def keywordHit (lowered : String) : Bool :=
  KEYWORDS.any (fun kw => strHasSub (pyLower kw) lowered)

/-- Hashtag rule: some hashtag text of the entities equals a configured tag. -/
def hashtagHit (status : Status) : Bool :=
  match status.entities with
  | none => false
  | some e => e.hashtags.any (fun tag => HASHTAGS.contains tag)

/-- URL rule: some expanded url (`u.get("expanded_url", "")`) contains a
configured streaming-service substring. -/
def urlHit (status : Status) : Bool :=
  match status.entities with
  | none => false
  | some e =>
    e.urls.any (fun u => STREAM_SERVICES.any (fun svc => strHasSub svc (u.getD "")))

/-- `is_streaming_tweet(status)`: `none` models an uncaught exception
(the eager `status.text` in the `getattr` default); otherwise exclusions
(reply, retweet) precede inclusions (keyword, hashtag, url). -/
def is_streaming_tweet (status : Status) : Option Bool :=
  match textOf status with
  | none => none
  | some text =>
    if pyStartsWith (pyStrip text) "@" then some false
    else if status.retweeted_status then some false
    else if keywordHit (pyLower text) then some true
    else if hashtagHit status then some true
    else if urlHit status then some true
    else some false

/-- The persisted `retweeted_ids.json` file: absent, unparseable, or a
parsed JSON array of ids. -/
inductive FileState
  | absent
  | corrupt
  | stored (ids : List Nat)
deriving DecidableEq

/-- `load_retweeted_ids()`: the parsed array as a set; absent or corrupt
state yields the empty set (the exception is swallowed). -/
def load_retweeted_ids : FileState → Finset Nat
  | .absent => ∅
  | .corrupt => ∅
  | .stored l => l.toFinset

/-- `save_retweeted_ids(ids)`: writes `list(ids)`; the argument is the
enumeration order Python happened to produce for the set. -/
def save_retweeted_ids (ids : List Nat) : FileState :=
  .stored ids

/-- One console line the run emits (fetch failure, RT success, RT
failure, classified-skip). -/
inductive LogEntry
  | fetchErr
  | rtOk (tid : Nat)
  | rtErr (tid : Nat)
  | skipped (tid : Nat)
deriving DecidableEq

/-- The external API: whether `api.retweet tid` succeeds or raises. -/
structure Env where
  retweetOk : Nat → Bool

/-- Observable outcome of (part of) a run: the in-memory dedup set, the
ids for which `api.retweet` was called (in order), the log, and whether
control flow completed without an uncaught exception. -/
structure DispatchOut where
  ids : Finset Nat
  calls : List Nat
  logs : List LogEntry
  ok : Bool
deriving DecidableEq

/-- The `for status in statuses` loop of `fetch_and_rt_for_user`: skip
ids already in the set, classify, retweet inside `try`, insert only on
success; a classifier exception propagates and aborts. -/
def rtLoop (env : Env) : List Status → Finset Nat → DispatchOut
  | [], ids => ⟨ids, [], [], true⟩
  | st :: rest, ids =>
    if st.id ∈ ids then rtLoop env rest ids
    else
      match is_streaming_tweet st with
      | none => ⟨ids, [], [], false⟩
      | some true =>
        if env.retweetOk st.id then
          let out := rtLoop env rest (insert st.id ids)
          ⟨out.ids, st.id :: out.calls, LogEntry.rtOk st.id :: out.logs, out.ok⟩
        else
          let out := rtLoop env rest ids
          ⟨out.ids, st.id :: out.calls, LogEntry.rtErr st.id :: out.logs, out.ok⟩
      | some false =>
        let out := rtLoop env rest ids
        ⟨out.ids, out.calls, LogEntry.skipped st.id :: out.logs, out.ok⟩

/-- `fetch_and_rt_for_user`: a fetch failure is caught, logged and the
function returns with the set untouched; otherwise the RT loop runs. -/
def fetch_and_rt_for_user (env : Env) (fetched : Except Unit (List Status))
    (ids : Finset Nat) : DispatchOut :=
  match fetched with
  | .error _ => ⟨ids, [], [LogEntry.fetchErr], true⟩
  | .ok sts => rtLoop env sts ids

/-- The `for user in TARGET_USERS` loop of `main`, one fetch result per
account; an uncaught exception aborts the remaining accounts. -/
def runAccounts (env : Env) : List (Except Unit (List Status)) → Finset Nat → DispatchOut
  | [], ids => ⟨ids, [], [], true⟩
  | f :: rest, ids =>
    let out := fetch_and_rt_for_user env f ids
    if out.ok then
      let out2 := runAccounts env rest out.ids
      ⟨out2.ids, out.calls ++ out2.calls, out.logs ++ out2.logs, out2.ok⟩
    else ⟨out.ids, out.calls, out.logs, false⟩

/-- `main` up to persistence: load the dedup set and process the accounts. -/
def mainRun (env : Env) (fetches : List (Except Unit (List Status)))
    (file : FileState) : DispatchOut :=
  runAccounts env fetches (load_retweeted_ids file)

/-- The file after `main`: `save_retweeted_ids` runs only when the loop
completed; an aborted run leaves the old file in place. -/
def persistedAfter (env : Env) (fetches : List (Except Unit (List Status)))
    (file : FileState) : FileState :=
  let out := mainRun env fetches file
  if out.ok then save_retweeted_ids (out.ids.sort (· ≤ ·)) else file

/-- Retweet calls made by two consecutive runs over the same fetched
posts, the second starting from the set the first one left. -/
def twoRunCalls (env : Env) (fetches : List (Except Unit (List Status)))
    (ids : Finset Nat) : List Nat :=
  let r1 := runAccounts env fetches ids
  r1.calls ++ (runAccounts env fetches r1.ids).calls

/-- Log of two consecutive runs, the second starting from the set the
first one left. -/
def twoRunLogs (env : Env) (fetches : List (Except Unit (List Status)))
    (ids : Finset Nat) : List LogEntry :=
  let r1 := runAccounts env fetches ids
  r1.logs ++ (runAccounts env fetches r1.ids).logs

/-- Occurrences of an id in a call list. -/
def countId (tid : Nat) : List Nat → Nat
  | [] => 0
  | t :: rest => (if t = tid then 1 else 0) + countId tid rest

/-- Successful retweets of an id recorded in a log. -/
def countRtOk (tid : Nat) : List LogEntry → Nat
  | [] => 0
  | LogEntry.rtOk t :: rest => (if t = tid then 1 else 0) + countRtOk tid rest
  | _ :: rest => countRtOk tid rest

example : is_streaming_tweet { id := 1, text := some (some "次の配信やるよ") } = some true := by decide
example : is_streaming_tweet { id := 2, text := some (some "@someone 配信お疲れ") } = some false := by decide
example :
    is_streaming_tweet
      { id := 3, text := some (some "今日は天気がいいね"),
        entities := some ⟨["CORO配信"], []⟩ } = some true := by decide
example :
    is_streaming_tweet
      { id := 4, text := some (some ""),
        entities := some ⟨[], [some "https://youtu.be/xyz"]⟩ } = some true := by decide
example : is_streaming_tweet { id := 5, full_text := some "次の配信", text := none } = none := by decide

/-- Concrete reply post: at-mention plus keyword, hashtag and url matches. -/
def replyPost : Status :=
  { id := 2, text := some (some "@someone 次の配信"),
    entities := some ⟨["CORO配信"], [some "https://twitch.tv/aomishibi"]⟩ }

/-- Concrete padded reply post: whitespace, then the at-mention, then a keyword. -/
def paddedReplyPost : Status :=
  { id := 8, text := some (some "  \t@someone 配信はじまるよ") }

/-- Concrete retweet post: upstream-repost reference plus keyword and hashtag. -/
def repostPost : Status :=
  { id := 3, text := some (some "次の配信はこちら"), retweeted_status := true,
    entities := some ⟨["CORO配信"], []⟩ }

theorem dropWhile_append_of_forall (p : Char → Bool) (l1 l2 : List Char)
    (h : ∀ c ∈ l1, p c = true) : (l1 ++ l2).dropWhile p = l2.dropWhile p := by
  induction l1 with
  | nil => rfl
  | cons c t ih =>
    rw [List.cons_append, List.dropWhile_cons, h c (by simp)]
    exact ih (fun d hd => h d (by simp [hd]))

theorem dropWhile_append_last (p : Char → Bool) (a : Char) (ha : p a = false)
    (l : List Char) : ∃ y, (l ++ [a]).dropWhile p = y ++ [a] := by
  induction l with
  | nil => exact ⟨[], by simp [List.dropWhile_cons, ha]⟩
  | cons c t ih =>
    by_cases hc : p c = true
    · obtain ⟨y, hy⟩ := ih
      exact ⟨y, by rw [List.cons_append, List.dropWhile_cons, hc, if_pos rfl, hy]⟩
    · exact ⟨c :: t, by
        rw [List.cons_append, List.dropWhile_cons, Bool.of_not_eq_true hc]
        simp⟩

theorem pyStrip_ws_at (ws rest : String) (hws : ∀ c ∈ ws.data, isPySpace c = true) :
    pyStartsWith (pyStrip (ws ++ "@" ++ rest)) "@" = true := by
  have hdata : (ws ++ "@" ++ rest).data = ws.data ++ ('@' :: rest.data) := by
    rw [String.data_append, String.data_append, List.append_assoc]
    rfl
  have hat : isPySpace '@' = false := by decide
  have h1 : (ws ++ "@" ++ rest).data.dropWhile isPySpace = '@' :: rest.data := by
    rw [hdata, dropWhile_append_of_forall _ _ _ hws, List.dropWhile_cons, hat]
    simp
  obtain ⟨y, hy⟩ := dropWhile_append_last isPySpace '@' hat rest.data.reverse
  have h2 : (pyStrip (ws ++ "@" ++ rest)).data = '@' :: y.reverse := by
    show (((ws ++ "@" ++ rest).data.dropWhile isPySpace).reverse.dropWhile isPySpace).reverse
        = '@' :: y.reverse
    rw [h1, List.reverse_cons, hy, List.reverse_append]
    rfl
  show ("@" : String).data.isPrefixOf (pyStrip (ws ++ "@" ++ rest)).data = true
  rw [h2]
  show ['@'].isPrefixOf ('@' :: y.reverse) = true
  simp [List.isPrefixOf]

theorem classify_reply (st : Status) (txt : String) (ht : textOf st = some txt)
    (hs : pyStartsWith (pyStrip txt) "@" = true) :
    is_streaming_tweet st = some false := by
  unfold is_streaming_tweet
  rw [ht]
  simp [hs]

theorem empty_append_str (s : String) : "" ++ s = s := by
  apply String.ext
  rw [String.data_append]
  rfl

/-- Claim C2: exclusions run before inclusions — a post whose text begins
with the at-mention sigil is classified false, whatever keywords,
hashtags or streaming urls it also carries. -/
theorem reply_excluded_before_inclusions (st : Status) (rest : String)
    (ht : textOf st = some ("@" ++ rest)) :
    is_streaming_tweet st = some false := by
  apply classify_reply st ("@" ++ rest) ht
  have h := pyStrip_ws_at "" rest (by intro c hc; cases hc)
  rwa [empty_append_str] at h

/-- Claim C2 witness: the reply exclusion wins on a concrete post that
carries a keyword, a configured hashtag and a streaming url. -/
theorem reply_excluded_before_inclusions_w :
    is_streaming_tweet replyPost = some false :=
  reply_excluded_before_inclusions replyPost "someone 次の配信" (by decide)

/-- Claim C8: the reply test strips surrounding whitespace first, so text
that is whitespace followed by the at-mention is still excluded. -/
theorem reply_excluded_after_strip (st : Status) (ws rest : String)
    (hws : ∀ c ∈ ws.data, isPySpace c = true)
    (ht : textOf st = some (ws ++ "@" ++ rest)) :
    is_streaming_tweet st = some false :=
  classify_reply st (ws ++ "@" ++ rest) ht (pyStrip_ws_at ws rest hws)

/-- Claim C8 witness: a post padded with blanks and a tab before the
at-mention, carrying a keyword, is classified false. -/
theorem reply_excluded_after_strip_w :
    is_streaming_tweet paddedReplyPost = some false :=
  reply_excluded_after_strip paddedReplyPost "  \t" "someone 配信はじまるよ"
    (by decide) (by decide)

/-- Claim C3: a post carrying an upstream-repost reference is classified
false, whatever keyword, hashtag or url content it has. -/
theorem repost_excluded (st : Status) (t : Option String)
    (hrt : st.retweeted_status = true) (ht : st.text = some t) :
    is_streaming_tweet st = some false := by
  unfold is_streaming_tweet textOf
  rw [ht]
  simp [hrt]

/-- Claim C3 witness: a concrete retweet with keyword and hashtag content
is classified false. -/
theorem repost_excluded_w : is_streaming_tweet repostPost = some false :=
  repost_excluded repostPost (some "次の配信はこちら") rfl rfl

/-- Concrete status whose `text` attribute holds Python `None`. -/
def noneTextPost : Status :=
  { id := 10, text := some none }

/-- Claim C4 counterexample: a status with a `full_text` but no `text`
attribute makes `is_streaming_tweet` raise `AttributeError` (`none`),
because the `getattr` default `status.text or ""` is evaluated eagerly —
the classifier is not total on every post record. -/
theorem classify_raises_without_text :
    is_streaming_tweet { id := 9, full_text := some "配信はじまるよ", text := none } = none := by
  decide

/-- Claim C4 amended: the classifier is pure and total on every post
record that has a `text` attribute (its value may be Python `None`);
absent `full_text` or `entities` degrade to no match instead of failing. -/
theorem classify_total_with_text (st : Status) (t : Option String)
    (ht : st.text = some t) : (is_streaming_tweet st).isSome = true := by
  unfold is_streaming_tweet textOf
  rw [ht]
  simp only [apply_ite Option.isSome, Option.isSome_some, ite_self]

/-- Claim C4 witness: a status whose `text` attribute is `None` and which
has no `full_text` and no `entities` still classifies (to a boolean). -/
theorem classify_total_with_text_w :
    (is_streaming_tweet noneTextPost).isSome = true :=
  classify_total_with_text noneTextPost none rfl

/-- Claim C7: saving a non-empty id set under any enumeration order and
loading it back yields the same set; loading an absent or unparseable
file yields the empty set (the failure is swallowed). -/
theorem dedup_roundtrip (S : Finset Nat) (l : List Nat) (hne : S.Nonempty)
    (hl : l.toFinset = S) :
    load_retweeted_ids (save_retweeted_ids l) = S ∧
    load_retweeted_ids FileState.absent = ∅ ∧
    load_retweeted_ids FileState.corrupt = ∅ := by
  refine ⟨?_, rfl, rfl⟩
  simpa [load_retweeted_ids, save_retweeted_ids] using hl

/-- Claim C7 witness: the set containing 1 and 2, serialized as the list
with 2 first, round-trips to the same set. -/
theorem dedup_roundtrip_w :
    load_retweeted_ids (save_retweeted_ids [2, 1]) = ({1, 2} : Finset Nat) ∧
    load_retweeted_ids FileState.absent = ∅ ∧
    load_retweeted_ids FileState.corrupt = ∅ :=
  dedup_roundtrip {1, 2} [2, 1] (by decide) (by decide)

/-- Claim C10: loading a parseable stored array yields exactly the set of
its elements, so repeated ids in the file collapse in memory. -/
theorem load_collapses_duplicates (l : List Nat) :
    (∀ x : Nat, x ∈ load_retweeted_ids (FileState.stored l) ↔ x ∈ l) ∧
    load_retweeted_ids (FileState.stored (l ++ l)) =
      load_retweeted_ids (FileState.stored l) := by
  constructor
  · intro x
    simp [load_retweeted_ids]
  · simp [load_retweeted_ids]

theorem countId_append (tid : Nat) (l1 l2 : List Nat) :
    countId tid (l1 ++ l2) = countId tid l1 + countId tid l2 := by
  induction l1 with
  | nil => simp [countId]
  | cons t rest ih => simp [countId, ih]; omega

theorem countRtOk_append (tid : Nat) (l1 l2 : List LogEntry) :
    countRtOk tid (l1 ++ l2) = countRtOk tid l1 + countRtOk tid l2 := by
  induction l1 with
  | nil => simp [countRtOk]
  | cons e rest ih => cases e <;> simp [countRtOk, ih] <;> omega

theorem rtLoop_mono (env : Env) (sts : List Status) :
    ∀ ids : Finset Nat, ids ⊆ (rtLoop env sts ids).ids := by
  induction sts with
  | nil => intro ids x hx; simpa [rtLoop] using hx
  | cons st rest ih =>
    intro ids
    by_cases hmem : st.id ∈ ids
    · simpa [rtLoop, hmem] using ih ids
    · rcases hcl : is_streaming_tweet st with _ | b
      · intro x hx; simpa [rtLoop, hmem, hcl] using hx
      · cases b
        · simpa [rtLoop, hmem, hcl] using ih ids
        · by_cases hrt : env.retweetOk st.id
          · intro x hx
            simp only [rtLoop, hmem, if_false, hcl, hrt, if_true]
            exact ih (insert st.id ids) (Finset.mem_insert_of_mem hx)
          · simpa [rtLoop, hmem, hcl, hrt] using ih ids

theorem rtLoop_mem_no_action (env : Env) (tid : Nat) (sts : List Status) :
    ∀ ids : Finset Nat, tid ∈ ids →
      countId tid (rtLoop env sts ids).calls = 0 ∧
      countRtOk tid (rtLoop env sts ids).logs = 0 := by
  induction sts with
  | nil => intro ids _; simp [rtLoop, countId, countRtOk]
  | cons st rest ih =>
    intro ids htid
    by_cases hmem : st.id ∈ ids
    · simpa [rtLoop, hmem] using ih ids htid
    · have hne : ¬ (st.id = tid) := fun h => hmem (h ▸ htid)
      rcases hcl : is_streaming_tweet st with _ | b
      · simp [rtLoop, hmem, hcl, countId, countRtOk]
      · cases b
        · simpa [rtLoop, hmem, hcl, countRtOk] using ih ids htid
        · by_cases hrt : env.retweetOk st.id
          · have h := ih (insert st.id ids) (Finset.mem_insert_of_mem htid)
            simp only [rtLoop, hmem, if_false, hcl, hrt, if_true]
            simpa [countId, countRtOk, hne] using h
          · have h := ih ids htid
            simp only [rtLoop, hmem, if_false, hcl, hrt]
            simpa [countId, countRtOk, hne] using h

theorem rtLoop_rtOk_once (env : Env) (tid : Nat) (sts : List Status) :
    ∀ ids : Finset Nat,
      countRtOk tid (rtLoop env sts ids).logs ≤ 1 ∧
      (0 < countRtOk tid (rtLoop env sts ids).logs → tid ∈ (rtLoop env sts ids).ids) := by
  induction sts with
  | nil => intro ids; simp [rtLoop, countRtOk]
  | cons st rest ih =>
    intro ids
    by_cases hmem : st.id ∈ ids
    · simpa [rtLoop, hmem] using ih ids
    · rcases hcl : is_streaming_tweet st with _ | b
      · simp [rtLoop, hmem, hcl, countRtOk]
      · cases b
        · simpa [rtLoop, hmem, hcl, countRtOk] using ih ids
        · by_cases hrt : env.retweetOk st.id
          · by_cases hid : st.id = tid
            · subst hid
              have h0 := rtLoop_mem_no_action env st.id rest (insert st.id ids)
                (Finset.mem_insert_self _ _)
              have hmono := rtLoop_mono env rest (insert st.id ids)
              simp only [rtLoop, hmem, if_false, hcl, hrt, if_true]
              constructor
              · simp [countRtOk, h0.2]
              · intro _
                exact hmono (Finset.mem_insert_self _ _)
            · have h := ih (insert st.id ids)
              simp only [rtLoop, hmem, if_false, hcl, hrt, if_true]
              simpa [countRtOk, hid] using h
          · have h := ih ids
            simp only [rtLoop, hmem, if_false, hcl, hrt]
            simpa [countRtOk] using h

theorem fetch_mono (env : Env) (f : Except Unit (List Status)) (ids : Finset Nat) :
    ids ⊆ (fetch_and_rt_for_user env f ids).ids := by
  cases f with
  | error e => intro x hx; simpa [fetch_and_rt_for_user] using hx
  | ok sts => exact rtLoop_mono env sts ids

theorem fetch_mem_no_action (env : Env) (tid : Nat) (f : Except Unit (List Status))
    (ids : Finset Nat) (htid : tid ∈ ids) :
    countId tid (fetch_and_rt_for_user env f ids).calls = 0 ∧
    countRtOk tid (fetch_and_rt_for_user env f ids).logs = 0 := by
  cases f with
  | error e => simp [fetch_and_rt_for_user, countId, countRtOk]
  | ok sts => exact rtLoop_mem_no_action env tid sts ids htid

theorem fetch_rtOk_once (env : Env) (tid : Nat) (f : Except Unit (List Status))
    (ids : Finset Nat) :
    countRtOk tid (fetch_and_rt_for_user env f ids).logs ≤ 1 ∧
    (0 < countRtOk tid (fetch_and_rt_for_user env f ids).logs →
      tid ∈ (fetch_and_rt_for_user env f ids).ids) := by
  cases f with
  | error e => simp [fetch_and_rt_for_user, countRtOk]
  | ok sts => exact rtLoop_rtOk_once env tid sts ids

theorem runAccounts_mono (env : Env) (fs : List (Except Unit (List Status))) :
    ∀ ids : Finset Nat, ids ⊆ (runAccounts env fs ids).ids := by
  induction fs with
  | nil => intro ids x hx; simpa [runAccounts] using hx
  | cons f rest ih =>
    intro ids
    by_cases hok : (fetch_and_rt_for_user env f ids).ok = true
    · intro x hx
      simp only [runAccounts, hok, if_true]
      exact ih _ (fetch_mono env f ids hx)
    · intro x hx
      simp only [runAccounts, hok, if_false]
      exact fetch_mono env f ids hx

theorem runAccounts_mem_no_action (env : Env) (tid : Nat)
    (fs : List (Except Unit (List Status))) :
    ∀ ids : Finset Nat, tid ∈ ids →
      countId tid (runAccounts env fs ids).calls = 0 ∧
      countRtOk tid (runAccounts env fs ids).logs = 0 := by
  induction fs with
  | nil => intro ids _; simp [runAccounts, countId, countRtOk]
  | cons f rest ih =>
    intro ids htid
    have h1 := fetch_mem_no_action env tid f ids htid
    by_cases hok : (fetch_and_rt_for_user env f ids).ok = true
    · have h2 := ih _ (fetch_mono env f ids htid)
      simp only [runAccounts, hok, if_true]
      simp [countId_append, countRtOk_append, h1.1, h1.2, h2.1, h2.2]
    · simp only [runAccounts, hok, if_false]
      exact h1

theorem runAccounts_rtOk_once (env : Env) (tid : Nat)
    (fs : List (Except Unit (List Status))) :
    ∀ ids : Finset Nat,
      countRtOk tid (runAccounts env fs ids).logs ≤ 1 ∧
      (0 < countRtOk tid (runAccounts env fs ids).logs →
        tid ∈ (runAccounts env fs ids).ids) := by
  induction fs with
  | nil => intro ids; simp [runAccounts, countRtOk]
  | cons f rest ih =>
    intro ids
    have h1 := fetch_rtOk_once env tid f ids
    by_cases hok : (fetch_and_rt_for_user env f ids).ok = true
    · have h2 := ih (fetch_and_rt_for_user env f ids).ids
      simp only [runAccounts, hok, if_true]
      rw [countRtOk_append]
      rcases Nat.eq_zero_or_pos (countRtOk tid (fetch_and_rt_for_user env f ids).logs)
        with hz | hpos
      · rw [hz]
        simpa using h2
      · have hin : tid ∈ (fetch_and_rt_for_user env f ids).ids := h1.2 hpos
        have hzero := (runAccounts_mem_no_action env tid rest _ hin).2
        constructor
        · omega
        · intro _
          exact runAccounts_mono env rest _ hin
    · simp only [runAccounts, hok, if_false]
      exact h1

/-- Concrete keyword-matching post used by the run-level facts. -/
def kwPost : Status :=
  { id := 1, text := some (some "次の配信") }

/-- Environment in which every `api.retweet` call raises. -/
def envFail : Env :=
  ⟨fun _ => false⟩

/-- Environment in which every `api.retweet` call succeeds. -/
def envOk : Env :=
  ⟨fun _ => true⟩

/-- Claim C1 counterexample: with an empty persisted set and a retweet
call that raises, the failing id is deliberately left out of the set, so
two consecutive runs over the same fetched posts both call `api.retweet`
for that id — more than one amplification call across the two runs. -/
theorem double_call_after_failure :
    ¬ countId 1 (twoRunCalls envFail [Except.ok [kwPost]] ∅) ≤ 1 := by
  decide

/-- Claim C1 amended: an identifier already in the dedup set is skipped
without any amplification call, and across two consecutive runs over the
same fetched posts (the second starting from the set the first left) at
most one amplification call per identifier succeeds; only a failed call
can be repeated. -/
theorem amplified_at_most_once (env : Env) (fs : List (Except Unit (List Status)))
    (S : Finset Nat) (tid : Nat) :
    countRtOk tid (twoRunLogs env fs S) ≤ 1 ∧
    (tid ∈ S → countId tid (runAccounts env fs S).calls = 0) := by
  constructor
  · show countRtOk tid ((runAccounts env fs S).logs ++
      (runAccounts env fs (runAccounts env fs S).ids).logs) ≤ 1
    rw [countRtOk_append]
    rcases Nat.eq_zero_or_pos (countRtOk tid (runAccounts env fs S).logs) with hz | hpos
    · rw [hz]
      simpa using (runAccounts_rtOk_once env tid fs (runAccounts env fs S).ids).1
    · have hin : tid ∈ (runAccounts env fs S).ids :=
        (runAccounts_rtOk_once env tid fs S).2 hpos
      have h1 := (runAccounts_rtOk_once env tid fs S).1
      have h2 := (runAccounts_mem_no_action env tid fs _ hin).2
      omega
  · intro hS
    exact (runAccounts_mem_no_action env tid fs S hS).1

/-- Claim C1 amended witness: id 1 in the persisted set is never called;
with a succeeding retweet call the successful amplification of id 1
happens at most once across two runs from the empty set. -/
theorem amplified_at_most_once_w :
    countRtOk 1 (twoRunLogs envOk [Except.ok [kwPost]] {1}) ≤ 1 ∧
    countId 1 (runAccounts envOk [Except.ok [kwPost]] {1}).calls = 0 :=
  ⟨(amplified_at_most_once envOk [Except.ok [kwPost]] {1} 1).1,
   (amplified_at_most_once envOk [Except.ok [kwPost]] {1} 1).2 (by decide)⟩

/-- Claim C5: when the retweet call for a classified post raises, the
loop logs the failure, does not insert the id, and continues with the
remaining posts, finishing exactly as it would without that post, the
abort flag included. -/
theorem rt_failure_isolated (env : Env) (st : Status) (rest : List Status)
    (ids : Finset Nat) (hmem : st.id ∉ ids)
    (hcl : is_streaming_tweet st = some true)
    (hrt : env.retweetOk st.id = false) :
    rtLoop env (st :: rest) ids =
      ⟨(rtLoop env rest ids).ids, st.id :: (rtLoop env rest ids).calls,
       LogEntry.rtErr st.id :: (rtLoop env rest ids).logs,
       (rtLoop env rest ids).ok⟩ := by
  simp [rtLoop, hmem, hcl, hrt]

/-- Claim C5 witness: the failing retweet of the concrete keyword post
leaves the empty set unchanged, is logged, and the run completes. -/
theorem rt_failure_isolated_w :
    rtLoop envFail [kwPost] ∅ =
      ⟨(rtLoop envFail [] ∅).ids, kwPost.id :: (rtLoop envFail [] ∅).calls,
       LogEntry.rtErr kwPost.id :: (rtLoop envFail [] ∅).logs,
       (rtLoop envFail [] ∅).ok⟩ :=
  rt_failure_isolated envFail kwPost [] ∅ (by decide) (by decide) rfl

/-- Claim C6: a failing fetch is caught and logged, that account's
processing ends with the dedup set untouched, and the remaining accounts
are processed exactly as if the failing account were absent. -/
theorem fetch_failure_isolated (env : Env)
    (rest : List (Except Unit (List Status))) (ids : Finset Nat) :
    fetch_and_rt_for_user env (Except.error ()) ids =
      ⟨ids, [], [LogEntry.fetchErr], true⟩ ∧
    runAccounts env (Except.error () :: rest) ids =
      ⟨(runAccounts env rest ids).ids, (runAccounts env rest ids).calls,
       LogEntry.fetchErr :: (runAccounts env rest ids).logs,
       (runAccounts env rest ids).ok⟩ := by
  exact ⟨rfl, by simp [runAccounts, fetch_and_rt_for_user]⟩

/-- Claim C9: the dedup set only grows — each dispatcher call returns a
superset of the set it was given, the set a run ends with contains the
set loaded at start, and so does the set read back from whatever file
the run leaves behind. -/
theorem dedup_monotone (env : Env) (fs : List (Except Unit (List Status)))
    (f : Except Unit (List Status)) (ids : Finset Nat) (file : FileState) :
    ids ⊆ (fetch_and_rt_for_user env f ids).ids ∧
    load_retweeted_ids file ⊆ (mainRun env fs file).ids ∧
    load_retweeted_ids file ⊆ load_retweeted_ids (persistedAfter env fs file) := by
  refine ⟨fetch_mono env f ids, runAccounts_mono env fs _, ?_⟩
  unfold persistedAfter
  by_cases hok : (mainRun env fs file).ok = true
  · simp only [hok, if_true]
    intro x hx
    simp only [save_retweeted_ids, load_retweeted_ids, Finset.sort_toFinset]
    exact runAccounts_mono env fs _ hx
  · simp only [hok, if_false]
    intro x hx
    exact hx
